import Mathlib

/-!
Verification of the cecil DAQ core: the per-satellite cycle-tracking state
machine and azimuth estimation of `src/models.py`, and the proprietary-sentence
dispatch and staleness sweep of `src/driver.py`, shallowly embedded in Lean.

Python floats are modelled as real numbers; exact per-phase means are rational.
A raised exception is modelled as an `Option` returning `none`.
-/

namespace Cecil

/-- Talker enum from `models.py`. -/
inductive Talker
  | GPS | GLONASS | GALIEO | BEIDOU | GNSS | QZSS
deriving DecidableEq

/-- `talker_to_offset` from `models.py`: a dictionary `.get` with default
`None`; the table covers every talker constructor. -/
def talker_to_offset (t : Talker) : Option Int :=
  match t with
  | .GALIEO => some 1000
  | .BEIDOU => some 2000
  | .GLONASS => some 3000
  | .GNSS => some 4000
  | .GPS => some 5000
  | .QZSS => some 6000

/-- Antenna phases from `models.py`. -/
inductive AntennaPhase
  | A | B | C | D
deriving DecidableEq

/-- Python truthiness of an `Optional[int]`: `None` and `0` are falsy. -/
def intTruthy : Option Int → Bool
  | none => false
  | some n => n != 0

/-- `Sat` from `models.py`: one satellite reading. -/
structure Sat where
  talker : Talker
  prn : Option Int
  azimuth : Option Int
  elevation : Option Int
  SNR : Option Int
  phase : AntennaPhase
  timestamp : ℝ

/-- `Sat.ident` from `models.py`: talker offset plus PRN when both are truthy,
else the sentinel `-1000`. -/
def Sat.ident (s : Sat) : Int :=
  match talker_to_offset s.talker, s.prn with
  | some o, some p => if o != 0 && p != 0 then o + p else -1000
  | _, _ => -1000

/-- `Sat.is_valid` from `models.py`: `SNR is not None and SNR > 0`. -/
def Sat.is_valid (s : Sat) : Bool :=
  match s.SNR with
  | none => false
  | some n => decide (0 < n)

/-- `Cycle` from `models.py`: the mutable active accumulation cycle. -/
structure Cycle where
  counter : Int
  A : List Int
  B : List Int
  C : List Int
  D : List Int
deriving DecidableEq

/-- `Cycle.__getitem__`: the sample list of one phase. -/
def Cycle.phaseList (c : Cycle) : AntennaPhase → List Int
  | .A => c.A
  | .B => c.B
  | .C => c.C
  | .D => c.D

/-- `self.active_cycle[sat.phase].append(snr)` from `models.py`. -/
def Cycle.appendSample (c : Cycle) (p : AntennaPhase) (snr : Int) : Cycle :=
  match p with
  | .A => { c with A := c.A ++ [snr] }
  | .B => { c with B := c.B ++ [snr] }
  | .C => { c with C := c.C ++ [snr] }
  | .D => { c with D := c.D ++ [snr] }

/-- `Cycle.is_valid` from `models.py`: at least one sample in each phase. -/
def Cycle.is_valid (c : Cycle) : Bool :=
  !c.A.isEmpty && !c.B.isEmpty && !c.C.isEmpty && !c.D.isEmpty

/-- `Cycle.is_invalid` from `models.py`. -/
def Cycle.is_invalid (c : Cycle) : Bool := !c.is_valid

/-- `statistics.fmean`: the arithmetic mean, exact over the rationals. -/
def fmean (l : List Int) : ℚ := (l.sum : ℚ) / l.length

/-- `math.atan2 y x`, realised as the argument of the complex number `x + y*i`
(the principal value in `(-pi, pi]`, matching `atan2`). -/
noncomputable def atan2 (y x : ℝ) : ℝ := Complex.arg ⟨x, y⟩

/-- `math.degrees`. -/
noncomputable def degrees (x : ℝ) : ℝ := x * 180 / Real.pi

/-- `FrozenCycle` from `models.py`: the immutable archived record. -/
structure FrozenCycle where
  counter : Int
  A : List Int
  B : List Int
  C : List Int
  D : List Int
  avg_A : ℚ
  avg_B : ℚ
  avg_C : ℚ
  avg_D : ℚ
  azimuth : ℝ

/-- `freeze_cycle` from `models.py`; the raised `ValueError` on an invalid
cycle is modelled as `none`. `azOffset` is the configured `cfg.daq.AZ_OFFSET`. -/
noncomputable def freeze_cycle (azOffset : ℝ) (active : Cycle) : Option FrozenCycle :=
  if active.is_invalid then none
  else
    let avg_a := fmean active.A
    let avg_b := fmean active.B
    let avg_c := fmean active.C
    let avg_d := fmean active.D
    let raw : ℝ := atan2 ((avg_a : ℝ) - (avg_c : ℝ)) ((avg_b : ℝ) - (avg_d : ℝ))
    let az : ℝ := degrees (if raw < 0 then 2 * Real.pi + raw else raw) + azOffset
    some ⟨active.counter, active.A, active.B, active.C, active.D,
          avg_a, avg_b, avg_c, avg_d, az⟩

/-- The azimuth the specification describes: raw angle
`atan2(avgA - avgC, avgB - avgD)` of the per-phase arithmetic means, a
negative raw angle normalized by adding a full turn before conversion to
degrees, and the configured calibration offset added to the degree value. -/
noncomputable def specAzimuth (azOffset : ℝ) (c : Cycle) : ℝ :=
  degrees
    (if atan2 ((fmean c.A : ℝ) - (fmean c.C : ℝ)) ((fmean c.B : ℝ) - (fmean c.D : ℝ)) < 0 then
      2 * Real.pi + atan2 ((fmean c.A : ℝ) - (fmean c.C : ℝ)) ((fmean c.B : ℝ) - (fmean c.D : ℝ))
    else
      atan2 ((fmean c.A : ℝ) - (fmean c.C : ℝ)) ((fmean c.B : ℝ) - (fmean c.D : ℝ))) + azOffset

/-- Modelled from the spec: `CaporDict` (`server.cecil.generics`, imported by
`models.py` but not under `src/`) is the BoundedOrderedMap of spec section 2 -
a generic fixed-capacity, insertion-order map with oldest-eviction, used here
keyed by cycle counter with `FrozenCycle` values. Entries are kept oldest
first. -/
structure CaporDict where
  capacity : Nat
  entries : List (Int × FrozenCycle)

/-- Modelled from the spec: the empty bounded map `CaporDict(avg_size)`. -/
def CaporDict.empty (cap : Nat) : CaporDict := ⟨cap, []⟩

/-- Modelled from the spec: key membership (`cycle in self._records`). -/
def CaporDict.contains (d : CaporDict) (k : Int) : Bool :=
  d.entries.any fun p => p.1 == k

/-- Modelled from the spec: insertion at the newest end
(`self._records[counter] = frozen`), evicting the oldest entries once the
capacity is exceeded. -/
def CaporDict.insert (d : CaporDict) (k : Int) (v : FrozenCycle) : CaporDict :=
  ⟨d.capacity,
    if d.capacity < (d.entries ++ [(k, v)]).length then
      (d.entries ++ [(k, v)]).drop ((d.entries ++ [(k, v)]).length - d.capacity)
    else d.entries ++ [(k, v)]⟩

/-- Modelled from the spec: `self._records.clear()`. -/
def CaporDict.clear (d : CaporDict) : CaporDict := ⟨d.capacity, []⟩

/-- Per-satellite tracker state (`SatHistory` in `models.py`). -/
structure SatHistory where
  talker : Talker
  prn : Option Int
  avg_size : Nat
  max_age : Nat
  active_phase : AntennaPhase
  active_cycle : Option Cycle
  _records : CaporDict
  age : Nat
  valid : Bool
  last_update : Option ℝ
  latest_sat : Option Sat

/-- `SatHistory.__init__` from `models.py` (logging and printing omitted). -/
def SatHistory.init (talker : Talker) (prn : Option Int) (avg_size max_age : Nat) :
    SatHistory where
  talker := talker
  prn := prn
  avg_size := avg_size
  max_age := max_age
  active_phase := .A
  active_cycle := none
  _records := CaporDict.empty avg_size
  age := 0
  valid := true
  last_update := none
  latest_sat := none

/-- `SatHistory.above_age_limit` from `models.py`: `self.age >= self.max_age`. -/
def SatHistory.above_age_limit (h : SatHistory) : Bool := decide (h.max_age ≤ h.age)

/-- `SatHistory.above_time_limit` from `models.py`: `maxAgeTime` is the
configured `cfg.daq.MAX_AGE_TIME` in milliseconds and `now` the wall clock
(`time.time()`). -/
noncomputable def SatHistory.above_time_limit (now maxAgeTime : ℝ) (h : SatHistory) : Bool :=
  match h.last_update with
  | none => false
  | some t => decide (t ≤ now - maxAgeTime / 1000)

/-- `SatHistory.ident` from `models.py`. -/
def SatHistory.ident (h : SatHistory) : Int :=
  match talker_to_offset h.talker, h.prn with
  | some o, some p => if o != 0 && p != 0 then o + p else -1000
  | _, _ => -1000

/-- Final section of `SatHistory.update` (`models.py` lines 389-397): append
the sample to the given active cycle, store the reading, revalidate, reset the
miss-age and stamp the update time. `recs` is the archive the middle section
settled on. -/
def finishUpdate (now : ℝ) (h : SatHistory) (recs : CaporDict) (ac : Cycle) (sat : Sat) :
    SatHistory × Nat :=
  ({ h with
      active_cycle := some (ac.appendSample sat.phase (sat.SNR.getD 0)),
      _records := recs,
      latest_sat := some sat,
      valid := true,
      active_phase := sat.phase,
      age := 0,
      last_update := some now }, 0)

/-- Middle section of `SatHistory.update` (`models.py` lines 360-397), where
`ac` is the (now existing) active cycle of `h`: reject counters earlier than
the active counter and counters already archived, freeze the superseded active
cycle when a boundary is crossed (archiving it only if valid), and append the
sample. A `ValueError` escaping `freeze_cycle` is `none`. -/
noncomputable def updateAccum (azOffset now : ℝ) (h : SatHistory) (ac : Cycle)
    (cycle : Int) (sat : Sat) : Option (SatHistory × Nat) :=
  if cycle < ac.counter then some (h, h.age)
  else if h._records.contains cycle then some (h, h.age)
  else if cycle = ac.counter then some (finishUpdate now h h._records ac sat)
  else if ac.is_valid then
    match freeze_cycle azOffset ac with
    | some fc =>
        some (finishUpdate now h (h._records.insert ac.counter fc)
          (Cycle.mk cycle [] [] [] []) sat)
    | none => none
  else some (finishUpdate now h h._records (Cycle.mk cycle [] [] [] []) sat)

/-- Section of `SatHistory.update` after the missing-SNR and age-limit steps
(`models.py` lines 355-397): an invalid tracker only ages; otherwise ensure an
active cycle exists and continue with `updateAccum`. -/
noncomputable def updateLive (azOffset now : ℝ) (h : SatHistory) (cycle : Int) (sat : Sat) :
    Option (SatHistory × Nat) :=
  if h.valid = false then some ({ h with age := h.age + 1 }, h.age + 1)
  else
    updateAccum azOffset now
      { h with active_cycle := some (h.active_cycle.getD (Cycle.mk cycle [] [] [] [])) }
      (h.active_cycle.getD (Cycle.mk cycle [] [] [] [])) cycle sat

/-- `SatHistory.update` from `models.py` (lines 339-397): a reading with falsy
SNR invalidates the tracker, records its phase and ages it; otherwise the
archive is cleared when the tracker is above its age limit and the live path
runs. Returns the new state and the returned age; `none` models an escaped
exception. -/
noncomputable def SatHistory.update (azOffset now : ℝ) (h : SatHistory) (cycle : Int)
    (sat : Sat) : Option (SatHistory × Nat) :=
  if intTruthy sat.SNR = false then
    some ({ h with valid := false, active_phase := sat.phase, age := h.age + 1 }, h.age + 1)
  else
    updateLive azOffset now
      (if h.above_age_limit then { h with _records := h._records.clear } else h) cycle sat

/-- `Antenna` from `models.py`. -/
structure Antenna where
  counter : Int
  phase : AntennaPhase
  interval : Int
  offset : Int
  last_change : ℝ

/-- `Temperature` from `models.py`. -/
structure Temperature where
  internal : ℝ
  external : ℝ

/-- `RawMagnetometerReading` from `models.py`. -/
structure RawMagnetometerReading where
  x : ℝ
  y : ℝ
  z : ℝ

/-- The `Driver` fields (`driver.py`) reachable from
`_sort_proprietary_sentence`. -/
structure DriverState where
  status : Option (List Char)
  error_status : Option (List Char)
  antenna_phase : AntennaPhase
  antenna : Option Antenna
  temprature : Option Temperature
  magnetometer : Option RawMagnetometerReading
  magnetometer_readings : List RawMagnetometerReading

/-- `AntennaPhase(c)`: the enum constructor; a `ValueError` on an unknown
character is `none`. -/
def charToPhase (c : Char) : Option AntennaPhase :=
  if c = 'A' then some .A
  else if c = 'B' then some .B
  else if c = 'C' then some .C
  else if c = 'D' then some .D
  else none

/-- A `collections.deque` with `maxlen`: append, dropping the oldest overflow. -/
def pushBounded (cap : Nat) (l : List RawMagnetometerReading)
    (m : RawMagnetometerReading) : List RawMagnetometerReading :=
  if cap < (l ++ [m]).length then (l ++ [m]).drop ((l ++ [m]).length - cap)
  else l ++ [m]

/-- `Driver._sort_proprietary_sentence` from `driver.py`. The sentence is the
decoded character list. The three decoders (`parse_phase_sentence`,
`parse_temperature_sentence`, `parse_magnetometer_sentence` of
`server.cecil.daq.parser`, not under `src/`) are modelled from the spec as
parameters that produce a typed reading or fail; `none` models a raised decode
exception, which the driver catches and logs, so every failure path returns
the state as mutated up to the point of the exception. An out-of-range
`decoded[4]` (`IndexError`) and an unknown phase character (`ValueError`) are
likewise caught. -/
def sortProprietary (parsePhase : List Char → Option Antenna)
    (parseTemp : List Char → Option Temperature)
    (parseMag : List Char → Option RawMagnetometerReading)
    (magCap : Nat) (s : DriverState) (decoded : List Char) : DriverState :=
  if decoded.take 3 = ['#', '0', '0'] then { s with status := some (decoded.drop 4) }
  else if decoded.take 3 = ['#', '0', '1'] then
    { s with error_status := some (decoded.drop 4) }
  else if decoded.take 3 = ['#', '0', '2'] then
    match decoded.get? 4 with
    | none => s
    | some c =>
      match charToPhase c with
      | none => s
      | some p =>
        match parsePhase decoded with
        | none => { s with antenna_phase := p }
        | some ant => { s with antenna_phase := p, antenna := some ant }
  else if decoded.take 3 = ['#', '1', '1'] then
    match parseTemp decoded with
    | none => s
    | some t => { s with temprature := some t }
  else if decoded.take 3 = ['#', '1', '0'] then
    match parseMag decoded with
    | none => s
    | some m =>
      { s with magnetometer := some m,
               magnetometer_readings := pushBounded magCap s.magnetometer_readings m }
  else s

/-- `Driver._drop_old_satellites` from `driver.py`: collect the idents of
trackers above the wall-clock time limit, then pop each of those keys from the
registry (the registry is keyed by `str(sat.ident)` at insertion). -/
noncomputable def drop_old_satellites (now maxAgeTime : ℝ)
    (sats : List (String × SatHistory)) : List (String × SatHistory) :=
  sats.filter fun p =>
    !(((sats.filter fun q => q.2.above_time_limit now maxAgeTime).map
        fun q => toString q.2.ident).contains p.1)

/-- Every frozen cycle of a bounded archive has at least one sample in each
of the four phases. -/
def OKd (d : CaporDict) : Prop :=
  ∀ p ∈ d.entries, p.2.A ≠ [] ∧ p.2.B ≠ [] ∧ p.2.C ≠ [] ∧ p.2.D ≠ []

/-- Every frozen cycle archived by a tracker has at least one sample in each
of the four phases. -/
def archiveOK (h : SatHistory) : Prop := OKd h._records

/-- How one `update` call can change a tracker's archive: unchanged, cleared,
or (possibly after a clear) extended by the freeze of a valid cycle. -/
def recordsEvolution (azOffset : ℝ) (r r' : CaporDict) : Prop :=
  r' = r ∨ r' = r.clear ∨
  ∃ d ac fc, (d = r ∨ d = r.clear) ∧ ac.is_valid = true ∧
    freeze_cycle azOffset ac = some fc ∧ r' = d.insert ac.counter fc

/-! Concrete inputs used by the witnesses and counterexamples below. -/

/-- A cycle whose phase means satisfy avgA - avgC = -1 and avgB - avgD = 0. -/
def cW1 : Cycle := ⟨0, [0], [1], [1], [1]⟩

/-- An archived frozen cycle used as concrete archive content. -/
def fcC2 : FrozenCycle := ⟨0, [1], [1], [1], [1], 1, 1, 1, 1, 90⟩

/-- An invalid tracker at its age limit with a non-empty archive. -/
def hC2 : SatHistory :=
  { talker := .GPS, prn := some 1, avg_size := 3, max_age := 60, active_phase := .A,
    active_cycle := none, _records := ⟨3, [(0, fcC2)]⟩, age := 60, valid := false,
    last_update := none, latest_sat := none }

/-- A reading with usable SNR. -/
def satC2 : Sat := ⟨.GPS, some 1, some 10, some 20, some 5, .A, 0⟩

/-- An invalid tracker below its age limit with a non-empty archive. -/
def hW2 : SatHistory :=
  { talker := .GPS, prn := some 2, avg_size := 3, max_age := 60, active_phase := .A,
    active_cycle := none, _records := ⟨3, [(0, fcC2)]⟩, age := 4, valid := false,
    last_update := none, latest_sat := none }

/-- A reading with usable SNR for the C2 witness. -/
def satW2 : Sat := ⟨.GPS, some 2, some 10, some 20, some 7, .C, 0⟩

/-- A tracker above its age limit (invalid, so the update result stays small). -/
def hW6 : SatHistory :=
  { talker := .GPS, prn := some 3, avg_size := 3, max_age := 60, active_phase := .A,
    active_cycle := none, _records := ⟨3, [(0, fcC2)]⟩, age := 60, valid := false,
    last_update := none, latest_sat := none }

/-- A reading with usable SNR for the C6 witness. -/
def satW6 : Sat := ⟨.GPS, some 3, some 10, some 20, some 7, .B, 0⟩

/-- The active cycle of the C7 trackers, with counter 2. -/
def acC7 : Cycle := ⟨2, [], [], [], []⟩

/-- A valid tracker that is above its age limit, with a non-empty archive and
an active cycle at counter 2. -/
def hC7 : SatHistory :=
  { talker := .GPS, prn := some 1, avg_size := 3, max_age := 1, active_phase := .A,
    active_cycle := some acC7, _records := ⟨3, [(0, fcC2)]⟩, age := 1, valid := true,
    last_update := none, latest_sat := none }

/-- A reading with usable SNR for the C7 counterexample. -/
def satC7 : Sat := ⟨.GPS, some 1, some 10, some 20, some 5, .A, 0⟩

/-- A valid tracker below its age limit, with a non-empty archive and an
active cycle at counter 2. -/
def hW7 : SatHistory :=
  { talker := .GPS, prn := some 1, avg_size := 3, max_age := 60, active_phase := .A,
    active_cycle := some acC7, _records := ⟨3, [(1, fcC2)]⟩, age := 0, valid := true,
    last_update := none, latest_sat := none }

/-- A reading with usable SNR for the C5 witness. -/
def satW5 : Sat := ⟨.GPS, some 1, some 10, some 20, some 7, .A, 0⟩

/-- A fresh tracker for the C5 witness. -/
def hW5 : SatHistory := SatHistory.init .GPS (some 1) 3 60

/-- The state of `hW5` after one update with `satW5` at cycle 1. -/
def hW5after : SatHistory :=
  { talker := .GPS, prn := some 1, avg_size := 3, max_age := 60, active_phase := .A,
    active_cycle := some ⟨1, [7], [], [], []⟩, _records := CaporDict.empty 3, age := 0,
    valid := true, last_update := some 0, latest_sat := some satW5 }

/-- A concrete driver state with antenna phase B and no readings. -/
def sC3 : DriverState :=
  { status := none, error_status := none, antenna_phase := .B, antenna := none,
    temprature := none, magnetometer := none, magnetometer_readings := [] }

/-- A stale tracker (last update at time 0) for the C8 witness. -/
def sW8 : SatHistory :=
  { talker := .GPS, prn := some 3, avg_size := 3, max_age := 60, active_phase := .A,
    active_cycle := none, _records := ⟨3, []⟩, age := 0, valid := true,
    last_update := some 0, latest_sat := none }

end Cecil

namespace Cecil

/-! Helper lemmas. -/

theorem freeze_cycle_eq_none_iff (azOffset : ℝ) (c : Cycle) :
    freeze_cycle azOffset c = none ↔ c.is_valid = false := by
  cases hv : c.is_valid <;> simp [freeze_cycle, Cycle.is_invalid, hv]

theorem freeze_cycle_fields (azOffset : ℝ) (c : Cycle) (fc : FrozenCycle)
    (hf : freeze_cycle azOffset c = some fc) :
    fc.counter = c.counter ∧ fc.A = c.A ∧ fc.B = c.B ∧ fc.C = c.C ∧ fc.D = c.D := by
  rw [freeze_cycle] at hf
  split at hf
  · exact Option.noConfusion hf
  · injection hf with h
    subst h
    exact ⟨rfl, rfl, rfl, rfl, rfl⟩

/-! C1. -/

/-- C1: for every valid cycle, the azimuth stored by `freeze_cycle` is the
value the spec describes: `atan2(avgA - avgC, avgB - avgD)` of the per-phase
arithmetic means, a negative result normalized by adding 2*pi before the
conversion to degrees, plus the configured calibration offset. -/
theorem freeze_cycle_azimuth_spec (azOffset : ℝ) (c : Cycle) (hv : c.is_valid = true) :
    ∃ fc, freeze_cycle azOffset c = some fc ∧ fc.azimuth = specAzimuth azOffset c := by
  have hinv : c.is_invalid = false := by simp [Cycle.is_invalid, hv]
  refine ⟨⟨c.counter, c.A, c.B, c.C, c.D, fmean c.A, fmean c.B, fmean c.C, fmean c.D,
    specAzimuth azOffset c⟩, ?_, rfl⟩
  rw [freeze_cycle, hinv]
  rfl

/-- C1 witness: a concrete valid cycle with per-phase averages satisfying
avgA - avgC = -1 and avgB - avgD = 0 at offset 0 freezes to azimuth exactly
270 degrees (the negative raw angle being normalized by +2*pi). -/
theorem freeze_cycle_azimuth_spec_witness :
    ∃ fc, freeze_cycle 0 cW1 = some fc ∧ fc.azimuth = 270 := by
  obtain ⟨fc, hfc, haz⟩ := freeze_cycle_azimuth_spec 0 cW1 rfl
  refine ⟨fc, hfc, ?_⟩
  rw [haz]
  have hA : (fmean cW1.A : ℝ) - (fmean cW1.C : ℝ) = -1 := by
    norm_num [fmean, cW1]
  have hB : (fmean cW1.B : ℝ) - (fmean cW1.D : ℝ) = 0 := by
    norm_num [fmean, cW1]
  have harg : atan2 ((fmean cW1.A : ℝ) - (fmean cW1.C : ℝ))
      ((fmean cW1.B : ℝ) - (fmean cW1.D : ℝ)) = -(Real.pi / 2) := by
    rw [hA, hB]
    have hmk : (⟨0, -1⟩ : ℂ) = -Complex.I := by
      simp [Complex.ext_iff]
    rw [atan2, hmk, Complex.arg_neg_I]
  have hneg : -(Real.pi / 2) < 0 := by
    have := Real.pi_pos
    linarith
  rw [specAzimuth, harg, if_pos hneg, degrees]
  have hpi := Real.pi_ne_zero
  field_simp
  ring

/-! C4. -/

/-- C4: an update whose reading carries no SNR leaves the active cycle (hence
all four sample sequences) unchanged, flips validity to invalid, records the
reading's phase as active phase, increments the miss-age by exactly 1, and
returns that new miss-age. -/
theorem update_missing_snr (azOffset now : ℝ) (h : SatHistory) (cycle : Int) (sat : Sat)
    (hs : sat.SNR = none) :
    SatHistory.update azOffset now h cycle sat =
      some ({ h with valid := false, active_phase := sat.phase, age := h.age + 1 },
        h.age + 1) := by
  simp [SatHistory.update, hs, intTruthy]

/-- C4 witness: the theorem applied to a concrete tracker and reading. -/
theorem update_missing_snr_witness :
    SatHistory.update 0 0 (SatHistory.init .GPS (some 1) 3 60) 1
        ⟨.GPS, some 1, none, none, none, .B, 0⟩ =
      some ({ SatHistory.init .GPS (some 1) 3 60 with
                valid := false, active_phase := .B, age := 1 }, 1) :=
  update_missing_snr 0 0 (SatHistory.init .GPS (some 1) 3 60) 1
    ⟨.GPS, some 1, none, none, none, .B, 0⟩ rfl

/-! C10. -/

/-- C10: a reading with SNR 0 takes exactly the missing-SNR path - the guard
tests Python truthiness - so the update result is identical to the one for an
absent SNR: tracker invalidated, phase recorded, miss-age incremented, no
sample appended; and `Sat.is_valid` is false for SNR 0 and for SNR `None`. -/
theorem update_zero_snr (azOffset now : ℝ) (h : SatHistory) (cycle : Int) (sat : Sat) :
    SatHistory.update azOffset now h cycle { sat with SNR := some 0 } =
        SatHistory.update azOffset now h cycle { sat with SNR := none } ∧
      SatHistory.update azOffset now h cycle { sat with SNR := some 0 } =
        some ({ h with valid := false, active_phase := sat.phase, age := h.age + 1 },
          h.age + 1) ∧
      Sat.is_valid { sat with SNR := some 0 } = false ∧
      Sat.is_valid { sat with SNR := none } = false := by
  refine ⟨?_, ?_, rfl, rfl⟩ <;> simp [SatHistory.update, intTruthy]

/-! C2. -/

/-- C2 (amended): once a tracker's valid flag is false, every update only
increments the miss-age and returns it, without appending any sample and
without ever setting the flag back to true - except that the call also records
the reading's phase when the SNR is unusable, and clears the archive when the
miss-age has reached the configured maximum and the SNR is usable; active
cycle, latest reading and last-update timestamp are untouched, so the invalid
state is absorbing for `update` and only registry eviction plus recreation
leaves it. -/
theorem update_invalid_absorbing (azOffset now : ℝ) (h : SatHistory) (cycle : Int)
    (sat : Sat) (hv : h.valid = false) :
    ∃ h', SatHistory.update azOffset now h cycle sat = some (h', h.age + 1) ∧
      h'.valid = false ∧
      h'.age = h.age + 1 ∧
      h'.active_cycle = h.active_cycle ∧
      h'.latest_sat = h.latest_sat ∧
      h'.last_update = h.last_update ∧
      h'.active_phase = (if intTruthy sat.SNR then h.active_phase else sat.phase) ∧
      h'._records =
        (if intTruthy sat.SNR ∧ h.above_age_limit then h._records.clear
         else h._records) := by
  cases hS : intTruthy sat.SNR with
  | false =>
    refine ⟨{ h with valid := false, active_phase := sat.phase, age := h.age + 1 },
      ?_, rfl, rfl, rfl, rfl, rfl, ?_, ?_⟩ <;>
      simp [SatHistory.update, hS]
  | true =>
    cases hA : h.above_age_limit with
    | false =>
      refine ⟨{ h with age := h.age + 1 }, ?_, ?_, rfl, rfl, rfl, rfl, ?_, ?_⟩ <;>
        simp [SatHistory.update, updateLive, hS, hA, hv]
    | true =>
      refine ⟨{ h with _records := h._records.clear, age := h.age + 1 },
        ?_, ?_, rfl, rfl, rfl, rfl, ?_, ?_⟩ <;>
        simp [SatHistory.update, updateLive, hS, hA, hv]

/-- C2 witness: the amended theorem at a concrete invalid tracker. -/
theorem update_invalid_absorbing_witness :
    ∃ h', SatHistory.update 0 0 hW2 3 satW2 = some (h', hW2.age + 1) ∧
      h'.valid = false ∧
      h'.age = hW2.age + 1 ∧
      h'.active_cycle = hW2.active_cycle ∧
      h'.latest_sat = hW2.latest_sat ∧
      h'.last_update = hW2.last_update ∧
      h'.active_phase = (if intTruthy satW2.SNR then hW2.active_phase else satW2.phase) ∧
      h'._records =
        (if intTruthy satW2.SNR ∧ hW2.above_age_limit then hW2._records.clear
         else hW2._records) :=
  update_invalid_absorbing 0 0 hW2 3 satW2 rfl

/-- C2 counterexample: a call on an invalid tracker that is at its age limit
does more than incrementing the miss-age - with a usable SNR it also empties
the frozen-cycle archive. -/
theorem update_invalid_clears_archive_cex :
    hC2.valid = false ∧
    hC2._records.entries.length = 1 ∧
    (SatHistory.update 0 0 hC2 0 satC2).map (fun p => p.1._records.entries.length) =
      some 0 := by
  refine ⟨rfl, rfl, ?_⟩
  rfl

/-! C6. -/

/-- C6: once the miss-age has reached the configured maximum, the next update
with a usable SNR clears the entire archive before applying its own sample:
the call is indistinguishable from the same call on the tracker with its
archive already cleared. -/
theorem update_age_limit_clears_archive (azOffset now : ℝ) (h : SatHistory) (cycle : Int)
    (sat : Sat) (hA : h.above_age_limit = true) (hS : intTruthy sat.SNR = true) :
    SatHistory.update azOffset now h cycle sat =
      SatHistory.update azOffset now { h with _records := h._records.clear } cycle sat := by
  have hA2 : h.max_age ≤ h.age := by
    simpa [SatHistory.above_age_limit] using hA
  simp [SatHistory.update, SatHistory.above_age_limit, hS, hA2, CaporDict.clear]

/-- C6 witness: the theorem at a concrete tracker at its age limit. -/
theorem update_age_limit_clears_archive_witness :
    SatHistory.update 0 0 hW6 2 satW6 =
      SatHistory.update 0 0 { hW6 with _records := hW6._records.clear } 2 satW6 :=
  update_age_limit_clears_archive 0 0 hW6 2 satW6 rfl rfl

/-! C7. -/

/-- C7 (amended): a call to `update` with usable SNR, on a valid tracker that
is below its age limit and has an active cycle, whose cycle counter is
strictly below the active counter or already a key of the archive, returns the
current miss-age and leaves the tracker state entirely unchanged. (Below the
age limit: otherwise the age-limit rule clears the archive before the counter
is rejected; an existing active cycle: otherwise a duplicate counter still
creates a fresh active cycle before being rejected.) -/
theorem update_stale_cycle_frame (azOffset now : ℝ) (h : SatHistory) (cycle : Int)
    (sat : Sat) (ac : Cycle) (hS : intTruthy sat.SNR = true) (hv : h.valid = true)
    (hA : h.above_age_limit = false) (hac : h.active_cycle = some ac)
    (hstale : cycle < ac.counter ∨ h._records.contains cycle = true) :
    SatHistory.update azOffset now h cycle sat = some (h, h.age) := by
  have hh : { h with active_cycle := some ac } = h := by
    cases h
    cases hac
    rfl
  rw [SatHistory.update, if_neg (by simp [hS]), if_neg (by simp [hA]), updateLive,
    if_neg (by simp [hv]), hac]
  simp only [Option.getD_some]
  rw [hh]
  rcases hstale with hlt | hdup
  · rw [updateAccum, if_pos hlt]
  · by_cases hlt : cycle < ac.counter
    · rw [updateAccum, if_pos hlt]
    · rw [updateAccum, if_neg hlt, if_pos hdup]

/-- C7 witness: the amended theorem at a concrete tracker, rejecting cycle
counter 0 while the active counter is 2. -/
theorem update_stale_cycle_frame_witness :
    SatHistory.update 0 0 hW7 0 satC7 = some (hW7, hW7.age) :=
  update_stale_cycle_frame 0 0 hW7 0 satC7 acC7 rfl rfl rfl rfl (Or.inl (by decide))

/-- C7 counterexample: a call with usable SNR on a valid tracker whose cycle
counter (0) is strictly below the active counter (2) nevertheless mutates the
tracker - the tracker is at its age limit, so the archive is emptied before
the stale counter is rejected. -/
theorem update_stale_cycle_cex :
    hC7.valid = true ∧ intTruthy satC7.SNR = true ∧ hC7.active_cycle = some acC7 ∧
    (0 : Int) < acC7.counter ∧ hC7._records.entries.length = 1 ∧
    (SatHistory.update 0 0 hC7 0 satC7).map (fun p => p.1._records.entries.length) =
      some 0 := by
  refine ⟨rfl, rfl, rfl, by decide, rfl, ?_⟩
  rfl

/-! Bounded-archive lemmas. -/

theorem insert_entries_eq (d : CaporDict) (k : Int) (v : FrozenCycle) :
    (d.insert k v).entries =
      if d.capacity < (d.entries ++ [(k, v)]).length then
        (d.entries ++ [(k, v)]).drop ((d.entries ++ [(k, v)]).length - d.capacity)
      else d.entries ++ [(k, v)] := rfl

theorem mem_insert_entries (d : CaporDict) (k : Int) (v : FrozenCycle)
    (p : Int × FrozenCycle) (hp : p ∈ (d.insert k v).entries) :
    p ∈ d.entries ∨ p = (k, v) := by
  rw [insert_entries_eq] at hp
  have hp' : p ∈ d.entries ++ [(k, v)] := by
    split at hp
    · exact List.drop_subset _ _ hp
    · exact hp
  rcases List.mem_append.mp hp' with hmem | hmem
  · exact Or.inl hmem
  · exact Or.inr (by simpa using hmem)

theorem length_insert_le (d : CaporDict) (k : Int) (v : FrozenCycle)
    (hle : d.entries.length ≤ d.capacity) :
    (d.insert k v).entries.length ≤ (d.insert k v).capacity := by
  show _ ≤ d.capacity
  rw [insert_entries_eq]
  split
  · simp only [List.length_drop, List.length_append, List.length_singleton]
    omega
  · rename_i hc
    simp only [List.length_append, List.length_singleton, not_lt] at hc
    simpa using hc

theorem insert_full_evicts (d : CaporDict) (k : Int) (v : FrozenCycle)
    (hfull : d.entries.length = d.capacity) (hpos : 1 ≤ d.capacity) :
    (d.insert k v).entries = d.entries.drop 1 ++ [(k, v)] := by
  rw [insert_entries_eq, if_pos (by simp [hfull])]
  have h1 : (d.entries ++ [(k, v)]).length - d.capacity = 1 := by
    simp [hfull]
  rw [h1, List.drop_append_eq_append_drop]
  have h2 : 1 - d.entries.length = 0 := by omega
  rw [h2]
  rfl

theorem cycle_valid_nonempty (c : Cycle) (hv : c.is_valid = true) :
    c.A ≠ [] ∧ c.B ≠ [] ∧ c.C ≠ [] ∧ c.D ≠ [] := by
  rw [Cycle.is_valid] at hv
  simp only [Bool.and_eq_true, Bool.not_eq_true'] at hv
  obtain ⟨⟨⟨hA, hB⟩, hC⟩, hD⟩ := hv
  exact ⟨by simpa using hA, by simpa using hB, by simpa using hC, by simpa using hD⟩

/-! What one `update` call can do to the archive. -/

theorem updateAccum_result (azOffset now : ℝ) (h : SatHistory) (ac : Cycle)
    (cycle : Int) (sat : Sat) :
    ∃ h' r, updateAccum azOffset now h ac cycle sat = some (h', r) ∧
      (h'._records = h._records ∨
       ∃ fc, ac.is_valid = true ∧ freeze_cycle azOffset ac = some fc ∧
         h'._records = h._records.insert ac.counter fc) := by
  rw [updateAccum]
  by_cases h1 : cycle < ac.counter
  · rw [if_pos h1]
    exact ⟨h, h.age, rfl, Or.inl rfl⟩
  rw [if_neg h1]
  by_cases h2 : h._records.contains cycle = true
  · rw [if_pos h2]
    exact ⟨h, h.age, rfl, Or.inl rfl⟩
  rw [if_neg h2]
  by_cases h3 : cycle = ac.counter
  · rw [if_pos h3]
    exact ⟨_, _, rfl, Or.inl rfl⟩
  rw [if_neg h3]
  by_cases h4 : ac.is_valid = true
  · rw [if_pos h4]
    obtain ⟨fc, hfc⟩ : ∃ fc, freeze_cycle azOffset ac = some fc := by
      cases hf : freeze_cycle azOffset ac with
      | none =>
        have hfv := (freeze_cycle_eq_none_iff azOffset ac).mp hf
        rw [h4] at hfv
        exact absurd hfv (by simp)
      | some fc => exact ⟨fc, rfl⟩
    rw [hfc]
    exact ⟨_, _, rfl, Or.inr ⟨fc, h4, rfl, rfl⟩⟩
  · rw [if_neg h4]
    exact ⟨_, _, rfl, Or.inl rfl⟩

theorem updateLive_result (azOffset now : ℝ) (h : SatHistory) (cycle : Int) (sat : Sat) :
    ∃ h' r, updateLive azOffset now h cycle sat = some (h', r) ∧
      (h'._records = h._records ∨
       ∃ ac fc, ac.is_valid = true ∧ freeze_cycle azOffset ac = some fc ∧
         h'._records = h._records.insert ac.counter fc) := by
  rw [updateLive]
  by_cases hv : h.valid = false
  · rw [if_pos hv]
    exact ⟨_, _, rfl, Or.inl rfl⟩
  · rw [if_neg hv]
    obtain ⟨h', r, he, hrec⟩ := updateAccum_result azOffset now
      { h with active_cycle := some (h.active_cycle.getD (Cycle.mk cycle [] [] [] [])) }
      (h.active_cycle.getD (Cycle.mk cycle [] [] [] [])) cycle sat
    refine ⟨h', r, he, ?_⟩
    rcases hrec with hrec | ⟨fc, hval, hfc, hrec⟩
    · exact Or.inl hrec
    · exact Or.inr ⟨_, fc, hval, hfc, hrec⟩

theorem update_result (azOffset now : ℝ) (h : SatHistory) (cycle : Int) (sat : Sat) :
    ∃ h' r, SatHistory.update azOffset now h cycle sat = some (h', r) ∧
      recordsEvolution azOffset h._records h'._records := by
  rw [SatHistory.update]
  by_cases hS : intTruthy sat.SNR = false
  · rw [if_pos hS]
    exact ⟨_, _, rfl, Or.inl rfl⟩
  · rw [if_neg hS]
    by_cases hA : h.above_age_limit = true
    · rw [if_pos hA]
      obtain ⟨h', r, he, hrec⟩ := updateLive_result azOffset now
        { h with _records := h._records.clear } cycle sat
      refine ⟨h', r, he, ?_⟩
      rcases hrec with hrec | ⟨ac, fc, hval, hfc, hrec⟩
      · exact Or.inr (Or.inl hrec)
      · exact Or.inr (Or.inr ⟨h._records.clear, ac, fc, Or.inr rfl, hval, hfc, hrec⟩)
    · rw [if_neg hA]
      obtain ⟨h', r, he, hrec⟩ := updateLive_result azOffset now h cycle sat
      refine ⟨h', r, he, ?_⟩
      rcases hrec with hrec | ⟨ac, fc, hval, hfc, hrec⟩
      · exact Or.inl hrec
      · exact Or.inr (Or.inr ⟨h._records, ac, fc, Or.inl rfl, hval, hfc, hrec⟩)

theorem recordsEvolution_capacity (azOffset : ℝ) (r r' : CaporDict)
    (he : recordsEvolution azOffset r r') : r'.capacity = r.capacity := by
  rcases he with rfl | rfl | ⟨d, ac, fc, hd, -, -, rfl⟩
  · rfl
  · rfl
  · rcases hd with rfl | rfl <;> rfl

theorem recordsEvolution_length (azOffset : ℝ) (r r' : CaporDict)
    (hlen : r.entries.length ≤ r.capacity) (he : recordsEvolution azOffset r r') :
    r'.entries.length ≤ r'.capacity := by
  rcases he with rfl | rfl | ⟨d, ac, fc, hd, -, -, rfl⟩
  · exact hlen
  · simp [CaporDict.clear]
  · refine length_insert_le d ac.counter fc ?_
    rcases hd with rfl | rfl
    · exact hlen
    · simp [CaporDict.clear]

theorem recordsEvolution_OKd (azOffset : ℝ) (r r' : CaporDict) (hok : OKd r)
    (he : recordsEvolution azOffset r r') : OKd r' := by
  rcases he with rfl | rfl | ⟨d, ac, fc, hd, hval, hfc, rfl⟩
  · exact hok
  · intro p hp
    simp [CaporDict.clear] at hp
  · intro p hp
    rcases mem_insert_entries d ac.counter fc p hp with hmem | rfl
    · rcases hd with rfl | rfl
      · exact hok p hmem
      · simp [CaporDict.clear] at hmem
    · obtain ⟨-, hA, hB, hC, hD⟩ := freeze_cycle_fields azOffset ac fc hfc
      obtain ⟨nA, nB, nC, nD⟩ := cycle_valid_nonempty ac hval
      exact ⟨by rw [hA]; exact nA, by rw [hB]; exact nB,
        by rw [hC]; exact nC, by rw [hD]; exact nD⟩

/-! C5. -/

/-- C5: `freeze_cycle` fails (raises) exactly on invalid cycles; under the
guard in `update` that failure is unreachable, so `update` never returns
`none`; a fresh tracker's archive is empty, and `update` preserves the
invariant that every archived frozen cycle has at least one sample in each of
the four phases - hence every archived `FrozenCycle` originates from a cycle
valid at freeze time. -/
theorem freeze_guard_unreachable :
    (∀ (azOffset : ℝ) (c : Cycle), freeze_cycle azOffset c = none ↔ c.is_valid = false) ∧
    (∀ (azOffset now : ℝ) (h : SatHistory) (cycle : Int) (sat : Sat),
      SatHistory.update azOffset now h cycle sat ≠ none) ∧
    (∀ (t : Talker) (prn : Option Int) (a m : Nat),
      archiveOK (SatHistory.init t prn a m)) ∧
    (∀ (azOffset now : ℝ) (h : SatHistory) (cycle : Int) (sat : Sat) (h' : SatHistory)
      (r : Nat), archiveOK h → SatHistory.update azOffset now h cycle sat = some (h', r) →
      archiveOK h') := by
  refine ⟨freeze_cycle_eq_none_iff, ?_, ?_, ?_⟩
  · intro azOffset now h cycle sat hnone
    obtain ⟨h', r, he, -⟩ := update_result azOffset now h cycle sat
    rw [he] at hnone
    exact Option.noConfusion hnone
  · intro t prn a m p hp
    simp [SatHistory.init, CaporDict.empty] at hp
  · intro azOffset now h cycle sat h' r hok hu
    obtain ⟨h'', r', he, hrec⟩ := update_result azOffset now h cycle sat
    rw [he] at hu
    injection hu with hu
    injection hu with hu1 hu2
    subst hu1
    exact recordsEvolution_OKd azOffset h._records h''._records hok hrec

/-- C5 witness: the invariant-preservation conjunct applied to a fresh tracker
and one concrete successful update. -/
theorem freeze_guard_unreachable_witness : archiveOK hW5after :=
  freeze_guard_unreachable.2.2.2 0 0 hW5 1 satW5 hW5after 0
    (by intro p hp; simp [hW5, SatHistory.init, CaporDict.empty] at hp) rfl

/-! C9. -/

/-- C9: a tracker's archive starts empty with capacity equal to the configured
window size `avg_size`; `update` preserves the capacity and the bound that the
archive never holds more than `capacity` entries; and an insertion into a full
archive evicts exactly the earliest-inserted entry. -/
theorem archive_capacity_bound :
    (∀ (t : Talker) (prn : Option Int) (a m : Nat),
      (SatHistory.init t prn a m)._records.capacity = a ∧
      (SatHistory.init t prn a m)._records.entries = []) ∧
    (∀ (azOffset now : ℝ) (h : SatHistory) (cycle : Int) (sat : Sat) (h' : SatHistory)
      (r : Nat), SatHistory.update azOffset now h cycle sat = some (h', r) →
      h'._records.capacity = h._records.capacity ∧
      (h._records.entries.length ≤ h._records.capacity →
        h'._records.entries.length ≤ h'._records.capacity)) ∧
    (∀ (d : CaporDict) (k : Int) (v : FrozenCycle), d.entries.length = d.capacity →
      1 ≤ d.capacity → (d.insert k v).entries = d.entries.drop 1 ++ [(k, v)]) := by
  refine ⟨fun t prn a m => ⟨rfl, rfl⟩, ?_, fun d k v hf hp => insert_full_evicts d k v hf hp⟩
  intro azOffset now h cycle sat h' r hu
  obtain ⟨h'', r', he, hrec⟩ := update_result azOffset now h cycle sat
  rw [he] at hu
  injection hu with hu
  injection hu with hu1 hu2
  subst hu1
  exact ⟨recordsEvolution_capacity azOffset h._records h''._records hrec,
    fun hlen => recordsEvolution_length azOffset h._records h''._records hlen hrec⟩

/-- C9 witness: inserting a third distinct counter into a full capacity-2
archive evicts the earliest entry. -/
theorem archive_capacity_bound_witness :
    (CaporDict.insert ⟨2, [(0, fcC2), (1, fcC2)]⟩ 2 fcC2).entries =
      [(1, fcC2), (2, fcC2)] := by
  have h := archive_capacity_bound.2.2 ⟨2, [(0, fcC2), (1, fcC2)]⟩ 2 fcC2 rfl
    (by norm_num)
  simpa using h

/-! C8. -/

/-- C8: on a registry sweep, every tracker stored under its own ident whose
last successful update strictly precedes `now` by more than the configured
wall-clock staleness threshold is removed from the registry; the statement
carries no hypothesis on the tracker's miss-age counter. -/
theorem drop_old_removes_stale (now maxAgeTime : ℝ) (sats : List (String × SatHistory))
    (k : String) (s : SatHistory) (t : ℝ) (hkey : k = toString s.ident)
    (hmem : (k, s) ∈ sats) (hlu : s.last_update = some t)
    (hstale : t < now - maxAgeTime / 1000) :
    (k, s) ∉ drop_old_satellites now maxAgeTime sats := by
  intro hin
  rw [drop_old_satellites] at hin
  have h2 := (List.mem_filter.mp hin).2
  have hAtl : s.above_time_limit now maxAgeTime = true := by
    simp only [SatHistory.above_time_limit, hlu]
    exact decide_eq_true (le_of_lt hstale)
  simp at h2
  exact h2 k s hmem hAtl hkey.symm

/-! C3. -/

/-- C3 (amended): for the recognized proprietary ids, a decode exception is
caught and leaves the driver state unmutated - except for ANTENNA_PHASE,
where the phase field is assigned before the snapshot decoder runs, so a
failure of the snapshot decoder can leave the new phase behind while all the
remaining state is untouched; a failure while reading or converting the phase
character itself leaves everything unchanged. (STATUS and ERROR_STATUS decode
by slicing and cannot fail.) -/
theorem sort_proprietary_failure_frame (parsePhase : List Char → Option Antenna)
    (parseTemp : List Char → Option Temperature)
    (parseMag : List Char → Option RawMagnetometerReading) (magCap : Nat)
    (s : DriverState) (decoded : List Char) :
    (decoded.take 3 = ['#', '1', '1'] → parseTemp decoded = none →
      sortProprietary parsePhase parseTemp parseMag magCap s decoded = s) ∧
    (decoded.take 3 = ['#', '1', '0'] → parseMag decoded = none →
      sortProprietary parsePhase parseTemp parseMag magCap s decoded = s) ∧
    (decoded.take 3 = ['#', '0', '2'] → parsePhase decoded = none →
      sortProprietary parsePhase parseTemp parseMag magCap s decoded = s ∨
      ∃ p, sortProprietary parsePhase parseTemp parseMag magCap s decoded =
        { s with antenna_phase := p }) := by
  refine ⟨?_, ?_, ?_⟩
  · intro hid ht
    rw [sortProprietary, hid, if_neg (by decide), if_neg (by decide), if_neg (by decide),
      if_pos rfl, ht]
  · intro hid hm
    rw [sortProprietary, hid, if_neg (by decide), if_neg (by decide), if_neg (by decide),
      if_neg (by decide), if_pos rfl, hm]
  · intro hid hp
    cases hget : decoded.get? 4 with
    | none =>
      exact Or.inl (by
        rw [sortProprietary, hid, if_neg (by decide), if_neg (by decide), if_pos rfl, hget])
    | some c =>
      cases hcp : charToPhase c with
      | none =>
        refine Or.inl ?_
        rw [sortProprietary, hid, if_neg (by decide), if_neg (by decide), if_pos rfl, hget]
        simp [hcp]
      | some p =>
        refine Or.inr ⟨p, ?_⟩
        rw [sortProprietary, hid, if_neg (by decide), if_neg (by decide), if_pos rfl, hget]
        simp [hcp, hp]

/-- C3 witness: a recognized TEMPERATURE sentence whose decoder fails leaves
the driver state unchanged. -/
theorem sort_proprietary_failure_frame_witness :
    sortProprietary (fun _ => none) (fun _ => none) (fun _ => none) 5 sC3
      ['#', '1', '1', ',', 'x'] = sC3 :=
  (sort_proprietary_failure_frame (fun _ => none) (fun _ => none) (fun _ => none) 5 sC3
    ['#', '1', '1', ',', 'x']).1 rfl rfl

/-- C3 counterexample: a recognized ANTENNA_PHASE sentence whose snapshot
decoder fails still mutates driver state - the antenna phase was assigned
before the exception was caught. -/
theorem sort_proprietary_phase_mutation_cex :
    sortProprietary (fun _ => none) (fun _ => none) (fun _ => none) 5 sC3
        ['#', '0', '2', ',', 'A'] =
      { sC3 with antenna_phase := AntennaPhase.A } ∧
    sC3.antenna_phase = AntennaPhase.B := ⟨rfl, rfl⟩

/-- C8 witness: a registry with one stale tracker (last update at 0, now 10,
threshold 1000 ms) loses that tracker on the sweep. -/
theorem drop_old_removes_stale_witness :
    ("5003", sW8) ∉ drop_old_satellites 10 1000 [("5003", sW8)] :=
  drop_old_removes_stale 10 1000 [("5003", sW8)] "5003" sW8 0 rfl
    (List.mem_singleton.mpr rfl) rfl (by norm_num)

end Cecil
